import Mathlib

/-!
Verification of the PixiJS/GSAP sprite-animation boilerplate (`src/Game.ts`).

The repository wires a 2D renderer to a canvas, shows a loading screen,
loads one texture, cross-fades to a game scene and then moves a sprite
horizontally through a scripted sequence of two-character move commands.

This file gives a shallow embedding of that orchestration:
* the pure animation sequencer `createAnimationTimeline` (the loop that
  turns the command list into a chain of GSAP tween steps) is embedded as
  a recursive function producing a list of `TweenStep`s;
* the asynchronous control flow (fade-in, simulated progress ramp, asset
  load success/failure, cross-fade, animation playback) is embedded as a
  small-step transition relation `Step` on `GameState`, with one
  constructor per awaited continuation of the source.
-/

namespace Demo

/-- A sprite: position plus anchor, mirroring the PIXI.Sprite fields the
program touches (`x`, `y`, `anchor`). -/
structure Sprite where
  x : Int
  y : Int
  anchorX : Rat
  anchorY : Rat
deriving DecidableEq

/-- `private speed = 10` — movement speed in pixels per step. -/
def speed : Int := 10

/-- `MOVEMENT_DURATION = 0.5` — duration of each movement tween in seconds. -/
def MOVEMENT_DURATION : Rat := 1/2

/-- `DELAY_BETWEEN_MOVES = 0.1` — delay before each movement tween in seconds. -/
def DELAY_BETWEEN_MOVES : Rat := 1/10

/-- `MIN_LOADING_TIME = 1` — duration of the simulated progress ramp in seconds. -/
def MIN_LOADING_TIME : Rat := 1

/-- `setTimeout(resolve, 300)` — the fixed pause (in milliseconds) after the
display reaches 100 percent and before the scene transition starts. -/
def PAUSE_AT_FULL_MS : Nat := 300

/-- Canvas width from the PIXI.Application options. -/
def APP_WIDTH : Int := 800

/-- Canvas height from the PIXI.Application options. -/
def APP_HEIGHT : Int := 600

/-- One `timeline.to(sprite, vars)` call: the animated property map (GSAP
treats `duration`, `ease` and `delay` as configuration, so the only animated
property the source ever passes is `x`), plus that configuration. -/
structure TweenStep where
  props : List (String × Int)
  duration : Rat
  ease : String
  delay : Rat
deriving DecidableEq

/-- `input.slice(1)[0]` — the sign token of a command: its second character,
if any. -/
def signToken (input : String) : Option Char :=
  (input.toList.drop 1).head?

/-- `command === "+" ? this.speed : -this.speed` — the signed step applied to
the running target for one command. -/
def magnitude (S : Int) (input : String) : Int :=
  if signToken input = some '+' then S else -S

/-- The loop body of `createAnimationTimeline`: starting from the running
target `currentX`, fold over the command list, each command advancing the
running target by `magnitude` and appending one tween step animating `x` to
the new running target. -/
def createAnimationTimeline (S : Int) : Int → List String → List TweenStep
  | _, [] => []
  | currentX, input :: rest =>
    let newX := currentX + magnitude S input
    { props := [("x", newX)], duration := MOVEMENT_DURATION,
      ease := "back.in", delay := DELAY_BETWEEN_MOVES }
      :: createAnimationTimeline S newX rest

/-- `createAnimationTimeline(sprite)` starts its running target at the
sprite's current x. -/
def timelineFor (S : Int) (sp : Sprite) (cmds : List String) : List TweenStep :=
  createAnimationTimeline S sp.x cmds

/-- Apply one entry of a tween's property map to a sprite: GSAP writes the
final value of the named numeric property onto the target object. -/
def applyProp (sp : Sprite) (p : String × Int) : Sprite :=
  if p.1 = "x" then { sp with x := p.2 }
  else if p.1 = "y" then { sp with y := p.2 }
  else sp

/-- The end state of one tween step on its target sprite. -/
def applyStep (sp : Sprite) (st : TweenStep) : Sprite :=
  st.props.foldl applyProp sp

/-- Run a chain of tween steps in order on a sprite. -/
def runTimeline : Sprite → List TweenStep → Sprite
  | sp, [] => sp
  | sp, st :: rest => runTimeline (applyStep sp st) rest

/-- `timeline.then(...)` logs `sprite.x` once the whole chain has run. -/
def finalReportedX (S : Int) (sp : Sprite) (cmds : List String) : Int :=
  (runTimeline sp (timelineFor S sp cmds)).x

/-- Observable timeline events: each step completing, then the chain's
completion callback reporting the sprite's final x. -/
inductive TLEvent
  | stepDone (sp : Sprite)
  | completed (finalX : Int)
deriving DecidableEq

/-- The event trace of a timeline: a GSAP timeline with no tweens completes
immediately, so the completion callback fires even for an empty chain. -/
def timelineEvents : Sprite → List TweenStep → List TLEvent
  | sp, [] => [TLEvent.completed sp.x]
  | sp, st :: rest =>
      TLEvent.stepDone (applyStep sp st) :: timelineEvents (applyStep sp st) rest

/-- The x-target a tween step animates to, if it animates x. -/
def targetX (st : TweenStep) : Option Int :=
  List.lookup ("x") st.props

/-- The sequence of running targets produced by the sequencer loop. -/
def runningTargets (S x : Int) (cmds : List String) : List Int :=
  (createAnimationTimeline S x cmds).filterMap targetX

/-- Number of commands whose sign token is `+`. -/
def plusCount (cmds : List String) : Nat :=
  cmds.countP (fun c => signToken c == some '+')

/-- Number of commands whose sign token is `-`. -/
def minusCount (cmds : List String) : Nat :=
  cmds.countP (fun c => signToken c == some '-')

/-- Signed token sum as the code computes it: `+1` for a `+` token and `-1`
for anything else. -/
def signedSum (cmds : List String) : Int :=
  cmds.foldr (fun c a => (if signToken c = some '+' then 1 else -1) + a) 0

/-- The slice of scheduled time one appended tween occupies on the GSAP
timeline: its delay followed by its duration. -/
def stepSpan (st : TweenStep) : Rat := st.delay + st.duration

/-- Total scheduled duration of a chain: each `timeline.to` appends at the
current end of the timeline, after its delay. -/
def totalDuration : List TweenStep → Rat
  | [] => 0
  | st :: rest => stepSpan st + totalDuration rest

/-- Scheduled start time of step `i` (its tween begins after its delay). -/
def stepStart (steps : List TweenStep) (i : Nat) : Rat :=
  totalDuration (steps.take i) + ((steps[i]?.map TweenStep.delay).getD 0)

/-- Scheduled end time of step `i`. -/
def stepEnd (steps : List TweenStep) (i : Nat) : Rat :=
  totalDuration (steps.take (i+1))

/-! ### Basic lemmas about the sequencer -/

theorem createAnimationTimeline_nil (S x : Int) :
    createAnimationTimeline S x [] = [] := rfl

theorem createAnimationTimeline_cons (S x : Int) (c : String) (rest : List String) :
    createAnimationTimeline S x (c :: rest) =
      { props := [("x", x + magnitude S c)], duration := MOVEMENT_DURATION,
        ease := "back.in", delay := DELAY_BETWEEN_MOVES }
        :: createAnimationTimeline S (x + magnitude S c) rest := rfl

theorem magnitude_eq_sign (S : Int) (c : String) :
    magnitude S c = S * (if signToken c = some '+' then 1 else -1) := by
  unfold magnitude
  by_cases h : signToken c = some '+' <;> simp [h]

theorem length_createAnimationTimeline (S : Int) (cmds : List String) :
    ∀ x, (createAnimationTimeline S x cmds).length = cmds.length := by
  induction cmds with
  | nil => intro x; rfl
  | cons c rest ih =>
      intro x
      simp [createAnimationTimeline_cons, ih]

theorem applyStep_x_only (sp : Sprite) (v : Int) (dur dly : Rat) (e : String) :
    applyStep sp { props := [("x", v)], duration := dur, ease := e, delay := dly }
      = { sp with x := v } := by
  simp [applyStep, applyProp]

theorem runTimeline_x (S : Int) (cmds : List String) :
    ∀ sp : Sprite,
      (runTimeline sp (createAnimationTimeline S sp.x cmds)).x
        = sp.x + S * signedSum cmds := by
  induction cmds with
  | nil => intro sp; simp [createAnimationTimeline, runTimeline, signedSum]
  | cons c rest ih =>
      intro sp
      rw [createAnimationTimeline_cons]
      show (runTimeline (applyStep sp _) _).x = _
      rw [applyStep_x_only]
      have h := ih { sp with x := sp.x + magnitude S c }
      simp only [] at h
      rw [h]
      simp only [signedSum, List.foldr_cons, magnitude]
      by_cases hc : signToken c = some '+' <;> simp [hc] <;> ring

theorem runTimeline_y_anchor (S : Int) (cmds : List String) :
    ∀ sp : Sprite,
      (runTimeline sp (createAnimationTimeline S sp.x cmds)).y = sp.y
      ∧ (runTimeline sp (createAnimationTimeline S sp.x cmds)).anchorX = sp.anchorX
      ∧ (runTimeline sp (createAnimationTimeline S sp.x cmds)).anchorY = sp.anchorY := by
  induction cmds with
  | nil => intro sp; simp [createAnimationTimeline, runTimeline]
  | cons c rest ih =>
      intro sp
      rw [createAnimationTimeline_cons]
      simp only [runTimeline, applyStep_x_only]
      exact ih { sp with x := sp.x + magnitude S c }

theorem signedSum_eq_counts (cmds : List String)
    (hwf : ∀ c ∈ cmds, signToken c = some '+' ∨ signToken c = some '-') :
    signedSum cmds = (plusCount cmds : Int) - (minusCount cmds : Int) := by
  induction cmds with
  | nil => simp [signedSum, plusCount, minusCount]
  | cons c rest ih =>
      have hc := hwf c (List.mem_cons_self c rest)
      have hrest := ih (fun d hd => hwf d (List.mem_cons_of_mem c hd))
      rcases hc with h | h
      · simp [signedSum, plusCount, minusCount, h, List.countP_cons] at *
        omega
      · have hne : ¬ signToken c = some '+' := by simp [h]
        simp [signedSum, plusCount, minusCount, h, hne, List.countP_cons] at *
        omega

theorem runningTargets_cons (S x : Int) (c : String) (rest : List String) :
    runningTargets S x (c :: rest)
      = (x + magnitude S c) :: runningTargets S (x + magnitude S c) rest := by
  simp [runningTargets, createAnimationTimeline_cons, targetX, List.lookup]

theorem runningTargets_idx (S : Int) (cmds : List String) :
    ∀ x i, i < cmds.length →
      (runningTargets S x cmds)[i]? = some (x + S * signedSum (cmds.take (i+1))) := by
  induction cmds with
  | nil => intro x i h; exact absurd h (Nat.not_lt_zero i)
  | cons c rest ih =>
      intro x i h
      rw [runningTargets_cons]
      cases i with
      | zero =>
          simp [signedSum, magnitude_eq_sign]
      | succ j =>
          have hj : j < rest.length := Nat.lt_of_succ_lt_succ h
          have := ih (x + magnitude S c) j hj
          simp only [List.getElem?_cons_succ]
          rw [this]
          congr 1
          simp only [List.take_cons, signedSum, List.foldr_cons, magnitude]
          by_cases hc : signToken c = some '+' <;> simp [hc] <;> ring

/-! ### Scheduling lemmas -/

theorem timeline_uniform_config (S : Int) (cmds : List String) :
    ∀ x, ∀ st ∈ createAnimationTimeline S x cmds,
      st.duration = MOVEMENT_DURATION ∧ st.delay = DELAY_BETWEEN_MOVES := by
  induction cmds with
  | nil => intro x st hst; simp [createAnimationTimeline] at hst
  | cons c rest ih =>
      intro x st hst
      rw [createAnimationTimeline_cons] at hst
      rcases List.mem_cons.mp hst with h | h
      · subst h; exact ⟨rfl, rfl⟩
      · exact ih (x + magnitude S c) st h

theorem totalDuration_uniform (k : Rat) :
    ∀ steps : List TweenStep, (∀ st ∈ steps, stepSpan st = k) →
      totalDuration steps = (steps.length : Rat) * k := by
  intro steps
  induction steps with
  | nil => intro _; simp [totalDuration]
  | cons st rest ih =>
      intro h
      have hs := h st (List.mem_cons_self st rest)
      have hr := ih (fun u hu => h u (List.mem_cons_of_mem st hu))
      simp [totalDuration, hs, hr]
      ring

theorem totalDuration_take_uniform (k : Rat) (steps : List TweenStep)
    (h : ∀ st ∈ steps, stepSpan st = k) (m : Nat) :
    totalDuration (steps.take m) = ((min m steps.length : Nat) : Rat) * k := by
  have hsub : ∀ st ∈ steps.take m, stepSpan st = k :=
    fun st hst => h st (List.take_subset m steps hst)
  rw [totalDuration_uniform k (steps.take m) hsub, List.length_take]

/-! ### State machine for the loading / error / transition flow

One `Step` constructor per awaited continuation of the source: the loader
fade-in completing, the text fade-in completing, a tick of the cosmetic
progress ramp, the asset-load promise rejecting or resolving, the 300 ms
pause elapsing, the cross-fade timeline completing, and the movement chain
advancing and completing. -/

/-- A `PIXI.Text` child: the fields the program sets. -/
structure TextChild where
  content : String
  fill : Nat
  x : Int
  y : Int
  anchorX : Rat
  anchorY : Rat
  alpha : Rat
deriving DecidableEq

/-- A display-tree child of one of the two scene containers. -/
inductive Child
  | text (t : TextChild)
  | sprite (sp : Sprite)
deriving DecidableEq

/-- A `PIXI.Container` scene: its opacity and its children. -/
structure Scene where
  alpha : Rat
  children : List Child
deriving DecidableEq

/-- Control-flow phase: which awaited continuation the program is parked on. -/
inductive Phase
  | start
  | textFading
  | loading
  | pausing
  | transitioning
  | inGame
  | errorShown
deriving DecidableEq

/-- The program state: the two scene containers, the constructed movement
chain (if any), the chain steps not yet executed, and the final position
reported by the completion callback (if it has fired). -/
structure GameState where
  phase : Phase
  loadingScene : Scene
  gameScene : Scene
  chain : Option (List TweenStep)
  pending : List TweenStep
  reported : Option Int
deriving DecidableEq

/-- The loading label as `showLoadingScreen` creates it: white text at the
canvas center, initially invisible. -/
def initialLoadingText : TextChild :=
  { content := "Loading... 0%", fill := 0xffffff, x := 400, y := 300,
    anchorX := 1/2, anchorY := 1/2, alpha := 0 }

/-- The error label as `showError` creates it: red text at the canvas
center. -/
def errorText : TextChild :=
  { content := "Error loading game assets", fill := 0xff0000, x := 400, y := 300,
    anchorX := 1/2, anchorY := 1/2, alpha := 1 }

/-- State after `constructor` + `initialize` + `showLoadingScreen`: both
scenes fully transparent, the loading label added to the loading scene, the
game scene empty, no chain built. -/
def initialState : GameState :=
  { phase := Phase.start,
    loadingScene := { alpha := 0, children := [Child.text initialLoadingText] },
    gameScene := { alpha := 0, children := [] },
    chain := none,
    pending := [],
    reported := none }

/-- `this.loadingScene.children[0] as PIXI.Text` — content of the loading
scene's first child, when it is a text. -/
def loadingTextContent (s : GameState) : Option String :=
  match s.loadingScene.children with
  | Child.text t :: _ => some t.content
  | _ => none

/-- `loadingText.text = msg` — update the content of the loading scene's
first child, when it is a text. -/
def setLoadingMsg (s : GameState) (msg : String) : GameState :=
  { s with loadingScene :=
      { s.loadingScene with children :=
          match s.loadingScene.children with
          | Child.text t :: rest => Child.text { t with content := msg } :: rest
          | cs => cs } }

/-- The start of `loadAssets`: the loading text fades to full opacity and is
then reset to the initial 0 percent message. -/
def textFadeIn (s : GameState) : GameState :=
  { s with loadingScene :=
      { s.loadingScene with children :=
          match s.loadingScene.children with
          | Child.text t :: rest =>
              Child.text { t with alpha := 1, content := "Loading... 0%" } :: rest
          | cs => cs } }

/-- `Loading... N%`. -/
def loadingMsg (n : Int) : String :=
  "Loading... " ++ toString n ++ "%"

/-- `Math.floor(progress * 90)` — the cosmetic ramp's displayed percentage
at ramp progress `q ∈ [0, 1]`. -/
def rampPercent (q : Rat) : Int :=
  Int.floor (q * 90)

/-- `showError` — replace the loading scene's children with the fixed error
label; nothing else changes except the phase becoming terminal. -/
def showError (s : GameState) : GameState :=
  { s with
      phase := Phase.errorShown,
      loadingScene := { s.loadingScene with children := [Child.text errorText] } }

/-- The sprite `setupGameScene` constructs: anchored at its center and
placed at the middle of the 800x600 canvas. -/
def gameSprite : Sprite :=
  { x := 400, y := 300, anchorX := 1/2, anchorY := 1/2 }

/-- `setupGameScene` — add the sprite to the game scene and build the
movement chain from the command list (this is the only place a chain is
constructed). -/
def setupGameScene (cmds : List String) (s : GameState) : GameState :=
  { s with
      phase := Phase.transitioning,
      gameScene := { s.gameScene with
        children := s.gameScene.children ++ [Child.sprite gameSprite] },
      chain := some (timelineFor speed gameSprite cmds),
      pending := timelineFor speed gameSprite cmds }

/-- Completion of the cross-fade in `transitionToGame`: the loading scene
has faded to 0, the game scene to 1, and `onComplete` removed all loading
scene children. -/
def transitionToGameComplete (s : GameState) : GameState :=
  { s with
      phase := Phase.inGame,
      loadingScene := { alpha := 0, children := [] },
      gameScene := { s.gameScene with alpha := 1 } }

/-- One movement tween writing its end values onto the sprite child. -/
def animateChild (st : TweenStep) : Child → Child
  | Child.sprite sp => Child.sprite (applyStep sp st)
  | c => c

/-- Run one pending movement step of the chain. -/
def applyAnimStep (s : GameState) (st : TweenStep) (rest : List TweenStep) : GameState :=
  { s with
      gameScene := { s.gameScene with
        children := s.gameScene.children.map (animateChild st) },
      pending := rest }

/-- The x of the first sprite child of a scene, if any. -/
def firstSpriteX (sc : Scene) : Option Int :=
  sc.children.findSome? (fun c =>
    match c with
    | Child.sprite sp => some sp.x
    | _ => none)

/-- The chain's completion callback: report the sprite's final x. -/
def reportFinal (s : GameState) : GameState :=
  { s with reported := firstSpriteX s.gameScene }

/-- Small-step transition relation of the orchestration, parameterized by
the build-time command list `cmds` (the `inputData` module). -/
inductive Step (cmds : List String) : GameState → GameState → Prop
  | fadeLoaderDone (s : GameState) :
      s.phase = Phase.start →
      Step cmds s { s with
        phase := Phase.textFading,
        loadingScene := { s.loadingScene with alpha := 1 } }
  | textFadeDone (s : GameState) :
      s.phase = Phase.textFading →
      Step cmds s { textFadeIn s with phase := Phase.loading }
  | rampTick (s : GameState) (q : Rat) :
      s.phase = Phase.loading → 0 ≤ q → q ≤ 1 →
      Step cmds s (setLoadingMsg s (loadingMsg (rampPercent q)))
  | loadRejected (s : GameState) :
      s.phase = Phase.loading →
      Step cmds s (showError s)
  | loadResolved (s : GameState) :
      s.phase = Phase.loading →
      Step cmds s { setLoadingMsg s (loadingMsg 100) with phase := Phase.pausing }
  | pauseDone (s : GameState) :
      s.phase = Phase.pausing →
      Step cmds s (setupGameScene cmds s)
  | transitionDone (s : GameState) :
      s.phase = Phase.transitioning →
      Step cmds s (transitionToGameComplete s)
  | animTick (s : GameState) (st : TweenStep) (rest : List TweenStep) :
      s.phase = Phase.inGame → s.pending = st :: rest →
      Step cmds s (applyAnimStep s st rest)
  | animDone (s : GameState) :
      s.phase = Phase.inGame → s.pending = [] →
      Step cmds s (reportFinal s)

/-- Reachability along the transition relation. -/
def Reach (cmds : List String) : GameState → GameState → Prop :=
  Relation.ReflTransGen (Step cmds)

/-! ### Invariants of the flow -/

/-- Phases before `setupGameScene` has run. -/
def beforeSetup : Phase → Bool
  | Phase.start => true
  | Phase.textFading => true
  | Phase.loading => true
  | _ => false

/-- Reachability invariant: before `setupGameScene`, no chain exists and the
game scene is untouched, the loading scene's only child being its label;
while loading, the displayed percentage never exceeds 90. -/
def Inv (s : GameState) : Prop :=
  (beforeSetup s.phase = true →
     s.chain = none ∧ s.gameScene.alpha = 0 ∧ s.gameScene.children = []
     ∧ ∃ t : TextChild, s.loadingScene.children = [Child.text t])
  ∧ (s.phase = Phase.loading →
     ∃ n : Int, 0 ≤ n ∧ n ≤ 90 ∧ loadingTextContent s = some (loadingMsg n))

theorem rampPercent_nonneg (q : Rat) (h0 : 0 ≤ q) : 0 ≤ rampPercent q := by
  unfold rampPercent
  have h : (0:Rat) ≤ q * 90 := by positivity
  exact Int.floor_nonneg.mpr h

theorem rampPercent_le_90 (q : Rat) (h1 : q ≤ 1) : rampPercent q ≤ 90 := by
  unfold rampPercent
  have h : q * 90 ≤ (90 : Rat) := by nlinarith
  have h2 : Int.floor (q * 90) ≤ Int.floor ((90 : Rat)) := Int.floor_mono h
  simpa using h2

theorem reach_inv (cmds : List String) (s : GameState)
    (h : Reach cmds initialState s) : Inv s := by
  induction h with
  | refl =>
      refine ⟨?_, ?_⟩
      · intro _
        exact ⟨rfl, rfl, rfl, initialLoadingText, rfl⟩
      · intro hp
        exact Phase.noConfusion hp
  | tail hr hstep ih =>
      rename_i b c
      obtain ⟨ih1, ih2⟩ := ih
      cases hstep with
      | fadeLoaderDone hb =>
          refine ⟨?_, ?_⟩
          · intro _
            obtain ⟨h1, h2, h3, t, ht⟩ := ih1 (by rw [hb]; rfl)
            exact ⟨h1, h2, h3, t, ht⟩
          · intro hp
            exact Phase.noConfusion hp
      | textFadeDone hb =>
          obtain ⟨h1, h2, h3, t, ht⟩ := ih1 (by rw [hb]; rfl)
          refine ⟨?_, ?_⟩
          · intro _
            refine ⟨h1, h2, h3, { t with alpha := 1, content := "Loading... 0%" }, ?_⟩
            show (textFadeIn b).loadingScene.children = _
            simp [textFadeIn, ht]
          · intro _
            refine ⟨0, le_refl 0, by norm_num, ?_⟩
            show loadingTextContent (textFadeIn b) = _
            simp [textFadeIn, loadingTextContent, ht]
            decide
      | rampTick q hb h0 h1 =>
          obtain ⟨h1', h2', h3', t, ht⟩ := ih1 (by rw [hb]; rfl)
          refine ⟨?_, ?_⟩
          · intro _
            refine ⟨h1', h2', h3',
              { t with content := loadingMsg (rampPercent q) }, ?_⟩
            simp [setLoadingMsg, ht]
          · intro _
            refine ⟨rampPercent q, rampPercent_nonneg q h0, rampPercent_le_90 q h1, ?_⟩
            simp [setLoadingMsg, loadingTextContent, ht]
      | loadRejected hb =>
          refine ⟨?_, ?_⟩
          · intro hfalse
            exact Bool.noConfusion hfalse
          · intro hp
            exact Phase.noConfusion hp
      | loadResolved hb =>
          refine ⟨?_, ?_⟩
          · intro hfalse
            exact Bool.noConfusion hfalse
          · intro hp
            exact Phase.noConfusion hp
      | pauseDone hb =>
          refine ⟨?_, ?_⟩
          · intro hfalse
            exact Bool.noConfusion hfalse
          · intro hp
            exact Phase.noConfusion hp
      | transitionDone hb =>
          refine ⟨?_, ?_⟩
          · intro hfalse
            exact Bool.noConfusion hfalse
          · intro hp
            exact Phase.noConfusion hp
      | animTick st rest hb hpend =>
          refine ⟨?_, ?_⟩
          · intro hfalse
            rw [show (applyAnimStep b st rest).phase = b.phase from rfl, hb] at hfalse
            exact Bool.noConfusion hfalse
          · intro hp
            rw [show (applyAnimStep b st rest).phase = b.phase from rfl, hb] at hp
            exact Phase.noConfusion hp
      | animDone hb hpend =>
          refine ⟨?_, ?_⟩
          · intro hfalse
            rw [show (reportFinal b).phase = b.phase from rfl, hb] at hfalse
            exact Bool.noConfusion hfalse
          · intro hp
            rw [show (reportFinal b).phase = b.phase from rfl, hb] at hp
            exact Phase.noConfusion hp

theorem no_step_from_error (cmds : List String) (s t : GameState)
    (hs : s.phase = Phase.errorShown) : ¬ Step cmds s t := by
  intro hstep
  cases hstep <;> simp_all

theorem error_terminal (cmds : List String) (s t : GameState)
    (hs : s.phase = Phase.errorShown) (h : Reach cmds s t) : t = s := by
  rcases Relation.ReflTransGen.cases_head h with h1 | ⟨c, hc, _⟩
  · exact h1.symm
  · exact absurd hc (no_step_from_error cmds s c hs)

/-- The steady state after the cross-fade completes: in-game, game scene
fully opaque, loading scene fully transparent and emptied. -/
def PostTransition (u : GameState) : Prop :=
  u.phase = Phase.inGame ∧ u.gameScene.alpha = 1
  ∧ u.loadingScene.alpha = 0 ∧ u.loadingScene.children = []

theorem postTransition_preserved (cmds : List String) (b u : GameState)
    (hb : PostTransition b) (h : Step cmds b u) : PostTransition u := by
  obtain ⟨hp, hg, hl, hc⟩ := hb
  cases h with
  | fadeLoaderDone hb1 => rw [hp] at hb1; exact Phase.noConfusion hb1
  | textFadeDone hb1 => rw [hp] at hb1; exact Phase.noConfusion hb1
  | rampTick q hb1 h0 h1 => rw [hp] at hb1; exact Phase.noConfusion hb1
  | loadRejected hb1 => rw [hp] at hb1; exact Phase.noConfusion hb1
  | loadResolved hb1 => rw [hp] at hb1; exact Phase.noConfusion hb1
  | pauseDone hb1 => rw [hp] at hb1; exact Phase.noConfusion hb1
  | transitionDone hb1 => rw [hp] at hb1; exact Phase.noConfusion hb1
  | animTick st rest hb1 hpend => exact ⟨hp, hg, hl, hc⟩
  | animDone hb1 hpend => exact ⟨hp, hg, hl, hc⟩

theorem postTransition_reach (cmds : List String) (b u : GameState)
    (hb : PostTransition b) (h : Reach cmds b u) : PostTransition u := by
  induction h with
  | refl => exact hb
  | tail _ hstep ih => exact postTransition_preserved cmds _ _ ih hstep

theorem transitionToGameComplete_post (s : GameState) :
    PostTransition (transitionToGameComplete s) :=
  ⟨rfl, rfl, rfl, rfl⟩

/-! ### Remaining helper lemmas -/

theorem timeline_props_x (S : Int) (cmds : List String) :
    ∀ x, ∀ st ∈ createAnimationTimeline S x cmds, st.props.map Prod.fst = ["x"] := by
  induction cmds with
  | nil => intro x st hst; simp [createAnimationTimeline] at hst
  | cons c rest ih =>
      intro x st hst
      rw [createAnimationTimeline_cons] at hst
      rcases List.mem_cons.mp hst with h | h
      · subst h; rfl
      · exact ih (x + magnitude S c) st h

theorem timeline_step_config (S x : Int) (cmds : List String) (j : Nat)
    (hj : j < cmds.length) :
    ∃ st, (createAnimationTimeline S x cmds)[j]? = some st
      ∧ st.duration = MOVEMENT_DURATION ∧ st.delay = DELAY_BETWEEN_MOVES := by
  have hlen : (createAnimationTimeline S x cmds).length = cmds.length :=
    length_createAnimationTimeline S cmds x
  have hj1 : j < (createAnimationTimeline S x cmds).length := by
    rw [hlen]; exact hj
  refine ⟨(createAnimationTimeline S x cmds)[j], List.getElem?_eq_getElem hj1, ?_⟩
  exact timeline_uniform_config S cmds x _ (List.getElem_mem hj1)

theorem signedSum_eq_plus_minus_other (cmds : List String) :
    signedSum cmds
      = (plusCount cmds : Int) - ((cmds.length : Int) - (plusCount cmds : Int)) := by
  induction cmds with
  | nil => simp [signedSum, plusCount]
  | cons c rest ih =>
      by_cases h : signToken c = some '+'
      · simp [signedSum, plusCount, List.countP_cons, h] at *
        omega
      · simp [signedSum, plusCount, List.countP_cons, h] at *
        omega

/-! ### Claim theorems: the animation sequencer -/

/-- C1: For every sequence of well-formed move commands (sign token `+` or
`-`, the data model's command alphabet) of length N with step magnitude S,
the final reported x equals start_x + S*(p - n) where p counts `+` tokens
and n counts `-` tokens; the running target after step i is start_x plus the
signed count difference over the first i+1 commands; and on the scenario
commands = ["L+","L+","L-"], S = 10, start_x = 400 the running targets are
[410, 420, 410] with final reported x = 410. -/
theorem createAnimationTimeline_final_and_running (S : Int) (sp : Sprite)
    (cmds : List String)
    (hwf : ∀ c ∈ cmds, signToken c = some '+' ∨ signToken c = some '-') :
    finalReportedX S sp cmds
      = sp.x + S * ((plusCount cmds : Int) - (minusCount cmds : Int))
    ∧ (∀ i, i < cmds.length →
        (runningTargets S sp.x cmds)[i]? =
          some (sp.x + S * ((plusCount (cmds.take (i+1)) : Int)
            - (minusCount (cmds.take (i+1)) : Int))))
    ∧ runningTargets 10 400 ["L+", "L+", "L-"] = [410, 420, 410]
    ∧ finalReportedX 10 { x := 400, y := 300, anchorX := 1/2, anchorY := 1/2 }
        ["L+", "L+", "L-"] = 410 := by
  refine ⟨?_, ?_, by decide, by decide⟩
  · show (runTimeline sp (createAnimationTimeline S sp.x cmds)).x = _
    rw [runTimeline_x S cmds sp, signedSum_eq_counts cmds hwf]
  · intro i hi
    rw [runningTargets_idx S cmds sp.x i hi,
        signedSum_eq_counts (cmds.take (i+1))
          (fun c hc => hwf c (List.take_subset (i+1) cmds hc))]

/-- Witness for C1: the spec scenario commands = ["L+","L+","L-"], S = 10,
start_x = 400 satisfies the well-formedness hypothesis; its final reported x
equals 400 + 10*(p - n). -/
theorem createAnimationTimeline_final_and_running_witness :
    finalReportedX 10 { x := 400, y := 300, anchorX := 1/2, anchorY := 1/2 }
        ["L+", "L+", "L-"]
      = 400 + 10 * ((plusCount ["L+", "L+", "L-"] : Int)
          - (minusCount ["L+", "L+", "L-"] : Int)) :=
  (createAnimationTimeline_final_and_running 10
    { x := 400, y := 300, anchorX := 1/2, anchorY := 1/2 }
    ["L+", "L+", "L-"] (by decide)).1

/-- C3: For the empty command sequence the sequencer creates a chain with
zero tween steps, and the chain's completion event still fires, reporting
the sprite's starting x unchanged. -/
theorem empty_commands_zero_steps_still_completes (S : Int) (sp : Sprite) :
    timelineFor S sp [] = []
    ∧ timelineEvents sp (timelineFor S sp []) = [TLEvent.completed sp.x] :=
  ⟨rfl, rfl⟩

/-- C4: A command whose sign token is neither `+` nor `-` is treated exactly
as a negative-direction move: its magnitude is -S and the chain built from
it coincides with the chain built from a `-`-token command in its place. -/
theorem unrecognized_token_acts_as_minus (S x : Int) (c d : String)
    (rest : List String)
    (hc : ∃ t, signToken c = some t ∧ t ≠ '+' ∧ t ≠ '-')
    (hd : signToken d = some '-') :
    magnitude S c = -S
    ∧ createAnimationTimeline S x (c :: rest)
        = createAnimationTimeline S x (d :: rest) := by
  obtain ⟨t, hct, hpl, hmn⟩ := hc
  have hcm : magnitude S c = -S := by
    unfold magnitude
    rw [hct, if_neg (by simp [hpl])]
  have hdm : magnitude S d = -S := by
    unfold magnitude
    rw [hd, if_neg (by decide)]
  refine ⟨hcm, ?_⟩
  rw [createAnimationTimeline_cons, createAnimationTimeline_cons, hcm, hdm]

/-- Witness for C4: the command "L*" (sign token `*`) moves by -10 and
builds the same chain as "L-". -/
theorem unrecognized_token_acts_as_minus_witness :
    magnitude 10 ("L*") = -10
    ∧ createAnimationTimeline 10 400 [("L*")]
        = createAnimationTimeline 10 400 [("L-")] :=
  unrecognized_token_acts_as_minus 10 400 ("L*") ("L-") []
    ⟨'*', by decide, by decide, by decide⟩ (by decide)

/-- C6: For a command sequence of length N the total scheduled duration of
the chain equals N*(D+G) with D = MOVEMENT_DURATION and
G = DELAY_BETWEEN_MOVES, and the steps are scheduled strictly in sequence:
an earlier step ends no later than any later step starts. -/
theorem chain_duration_and_strict_sequencing (S x : Int) (cmds : List String) :
    totalDuration (createAnimationTimeline S x cmds)
      = (cmds.length : Rat) * (MOVEMENT_DURATION + DELAY_BETWEEN_MOVES)
    ∧ ∀ i j, i < j → j < cmds.length →
        stepEnd (createAnimationTimeline S x cmds) i
          ≤ stepStart (createAnimationTimeline S x cmds) j := by
  have huni : ∀ st ∈ createAnimationTimeline S x cmds,
      stepSpan st = MOVEMENT_DURATION + DELAY_BETWEEN_MOVES := by
    intro st hst
    obtain ⟨hd, hdel⟩ := timeline_uniform_config S cmds x st hst
    rw [stepSpan, hd, hdel]
    norm_num [MOVEMENT_DURATION, DELAY_BETWEEN_MOVES]
  have hlen : (createAnimationTimeline S x cmds).length = cmds.length :=
    length_createAnimationTimeline S cmds x
  constructor
  · rw [totalDuration_uniform _ _ huni, hlen]
  · intro i j hij hj
    obtain ⟨st, hst, hd, hdel⟩ := timeline_step_config S x cmds j hj
    rw [stepEnd, stepStart,
        totalDuration_take_uniform _ _ huni (i+1),
        totalDuration_take_uniform _ _ huni j, hst]
    simp only [Option.map_some', Option.getD_some]
    rw [hdel, hlen]
    have hi1 : min (i+1) cmds.length = i+1 :=
      Nat.min_eq_left (Nat.succ_le_of_lt (lt_trans hij hj))
    have hj2 : min j cmds.length = j := Nat.min_eq_left (Nat.le_of_lt hj)
    rw [hi1, hj2]
    have hle : ((i+1 : Nat) : Rat) ≤ ((j : Nat) : Rat) := by
      exact_mod_cast Nat.succ_le_of_lt hij
    have hk : (0:Rat) ≤ MOVEMENT_DURATION + DELAY_BETWEEN_MOVES := by
      norm_num [MOVEMENT_DURATION, DELAY_BETWEEN_MOVES]
    have hG : (0:Rat) ≤ DELAY_BETWEEN_MOVES := by norm_num [DELAY_BETWEEN_MOVES]
    calc ((i+1 : Nat) : Rat) * (MOVEMENT_DURATION + DELAY_BETWEEN_MOVES)
        ≤ ((j : Nat) : Rat) * (MOVEMENT_DURATION + DELAY_BETWEEN_MOVES) :=
          mul_le_mul_of_nonneg_right hle hk
      _ ≤ ((j : Nat) : Rat) * (MOVEMENT_DURATION + DELAY_BETWEEN_MOVES)
            + DELAY_BETWEEN_MOVES := le_add_of_nonneg_right hG

/-- Witness for C6: for two commands the total is 2*(D+G) and step 0 ends
before step 1 starts. -/
theorem chain_duration_and_strict_sequencing_witness :
    totalDuration (createAnimationTimeline 10 400 [("L+"), ("L-")])
      = ((2:Nat) : Rat) * (MOVEMENT_DURATION + DELAY_BETWEEN_MOVES)
    ∧ stepEnd (createAnimationTimeline 10 400 [("L+"), ("L-")]) 0
        ≤ stepStart (createAnimationTimeline 10 400 [("L+"), ("L-")]) 1 :=
  ⟨(chain_duration_and_strict_sequencing 10 400 [("L+"), ("L-")]).1,
   (chain_duration_and_strict_sequencing 10 400 [("L+"), ("L-")]).2 0 1
     (by decide) (by decide)⟩

/-- C8: Every tween step the sequencer appends animates the property `x`
only, and running the whole chain leaves the sprite's y and anchor
unchanged. -/
theorem chain_animates_only_x (S : Int) (sp : Sprite) (cmds : List String) :
    (∀ st ∈ timelineFor S sp cmds, st.props.map Prod.fst = ["x"])
    ∧ (runTimeline sp (timelineFor S sp cmds)).y = sp.y
    ∧ (runTimeline sp (timelineFor S sp cmds)).anchorX = sp.anchorX
    ∧ (runTimeline sp (timelineFor S sp cmds)).anchorY = sp.anchorY :=
  ⟨timeline_props_x S cmds sp.x, runTimeline_y_anchor S cmds sp⟩

/-- Witness for C8: on commands ["L+"] from x = 400 the single step animates
only `x` and y stays 300. -/
theorem chain_animates_only_x_witness :
    ({ props := [("x", 410)], duration := MOVEMENT_DURATION,
       ease := "back.in", delay := DELAY_BETWEEN_MOVES } : TweenStep).props.map
        Prod.fst = ["x"]
    ∧ (runTimeline { x := 400, y := 300, anchorX := 1/2, anchorY := 1/2 }
        (timelineFor 10 { x := 400, y := 300, anchorX := 1/2, anchorY := 1/2 }
          [("L+")])).y = 300 :=
  ⟨(chain_animates_only_x 10
      { x := 400, y := 300, anchorX := 1/2, anchorY := 1/2 } [("L+")]).1
      _ (show _ ∈ [({ props := [("x", 410)],
                      duration := MOVEMENT_DURATION,
                      ease := "back.in",
                      delay := DELAY_BETWEEN_MOVES } : TweenStep)] from
          List.mem_singleton.mpr rfl),
   (chain_animates_only_x 10
      { x := 400, y := 300, anchorX := 1/2, anchorY := 1/2 } [("L+")]).2.1⟩

/-- C10: In the success path the sprite is constructed at x = 400, y = 300
(the center of the 800x600 canvas) with anchor (0.5, 0.5) and appended to
the game scene; the constants are S = 10, D = 0.5 s, G = 0.1 s; and for any
command list the final reported x equals 400 + 10*(p - n) where p counts `+`
tokens and n all other commands. -/
theorem game_constants_and_final_x (cmds : List String) (s : GameState) :
    gameSprite = { x := 400, y := 300, anchorX := 1/2, anchorY := 1/2 }
    ∧ gameSprite.x * 2 = APP_WIDTH ∧ gameSprite.y * 2 = APP_HEIGHT
    ∧ (setupGameScene cmds s).gameScene.children
        = s.gameScene.children ++ [Child.sprite gameSprite]
    ∧ speed = 10 ∧ MOVEMENT_DURATION = 1/2 ∧ DELAY_BETWEEN_MOVES = 1/10
    ∧ finalReportedX speed gameSprite cmds
        = 400 + 10 * ((plusCount cmds : Int)
            - ((cmds.length : Int) - (plusCount cmds : Int))) := by
  refine ⟨rfl, rfl, rfl, rfl, rfl, rfl, rfl, ?_⟩
  show (runTimeline gameSprite (createAnimationTimeline speed gameSprite.x cmds)).x = _
  rw [runTimeline_x speed cmds gameSprite, signedSum_eq_plus_minus_other cmds]
  rfl

/-! ### Claim theorems: loading, error and transition flow -/

/-- C2: From any reachable state awaiting the asset load, a rejection step
exists, it replaces the loading scene's children with the fixed error label,
no animation chain has been constructed, and every state reachable from the
error state is the error state itself with still no chain: the application
is parked there permanently. -/
theorem load_rejection_terminal (cmds : List String) (s : GameState)
    (hreach : Reach cmds initialState s) (hph : s.phase = Phase.loading) :
    Step cmds s (showError s)
    ∧ (showError s).loadingScene.children = [Child.text errorText]
    ∧ (showError s).chain = none
    ∧ (∀ t, Reach cmds (showError s) t → t = showError s ∧ t.chain = none) := by
  have hinv := reach_inv cmds s hreach
  have hchain : s.chain = none := (hinv.1 (by rw [hph]; rfl)).1
  refine ⟨Step.loadRejected s hph, rfl, hchain, ?_⟩
  intro t ht
  have hts := error_terminal cmds (showError s) t rfl ht
  refine ⟨hts, ?_⟩
  rw [hts]
  exact hchain

/-- C5: Every state reachable after the cross-fade completes has the game
scene fully opaque (alpha at least 0.99 — in fact 1), the loading scene
fully transparent (alpha at most 0.01 — in fact 0, and not itself at least
0.99, so exactly one scene is opaque) and with no surviving children. -/
theorem post_transition_opacity (cmds : List String) (s u : GameState)
    (_hs : s.phase = Phase.transitioning)
    (hr : Reach cmds (transitionToGameComplete s) u) :
    u.gameScene.alpha ≥ 99/100
    ∧ u.loadingScene.alpha ≤ 1/100
    ∧ ¬ u.loadingScene.alpha ≥ 99/100
    ∧ u.loadingScene.children = [] := by
  obtain ⟨_, hg, hl, hc⟩ :=
    postTransition_reach cmds (transitionToGameComplete s) u
      (transitionToGameComplete_post s) hr
  rw [hg, hl]
  refine ⟨by norm_num, by norm_num, by norm_num, hc⟩

/-- C7: While the load is outstanding the displayed label always reads
"Loading... n%" for some n between 0 and 90 (the ramp value floor(q*90)
never exceeds 90); the only step into the pausing phase sets the label to
"Loading... 100%"; the transition phase is entered only from the pausing
phase (the fixed 300 ms pause); and the pause constant is 300 ms. -/
theorem progress_ramp_capped_then_full (cmds : List String) :
    (∀ s, Reach cmds initialState s → s.phase = Phase.loading →
       ∃ n : Int, 0 ≤ n ∧ n ≤ 90 ∧ loadingTextContent s = some (loadingMsg n))
    ∧ (∀ q : Rat, 0 ≤ q → q ≤ 1 → 0 ≤ rampPercent q ∧ rampPercent q ≤ 90)
    ∧ (∀ s t, Reach cmds initialState s → Step cmds s t →
         t.phase = Phase.pausing → loadingTextContent t = some (loadingMsg 100))
    ∧ (∀ s t, Step cmds s t → t.phase = Phase.transitioning →
         s.phase = Phase.pausing)
    ∧ PAUSE_AT_FULL_MS = 300 := by
  refine ⟨?_, ?_, ?_, ?_, rfl⟩
  · intro s hr hp
    exact (reach_inv cmds s hr).2 hp
  · intro q h0 h1
    exact ⟨rampPercent_nonneg q h0, rampPercent_le_90 q h1⟩
  · intro s t hr hstep hph
    cases hstep with
    | fadeLoaderDone hb => exact Phase.noConfusion hph
    | textFadeDone hb => exact Phase.noConfusion hph
    | rampTick q hb h0 h1 =>
        have h : s.phase = Phase.pausing := hph
        rw [hb] at h
        exact Phase.noConfusion h
    | loadRejected hb => exact Phase.noConfusion hph
    | loadResolved hb =>
        obtain ⟨_, _, _, t', ht'⟩ := (reach_inv cmds s hr).1 (by rw [hb]; rfl)
        show loadingTextContent (setLoadingMsg s (loadingMsg 100)) = _
        simp [setLoadingMsg, loadingTextContent, ht']
    | pauseDone hb => exact Phase.noConfusion hph
    | transitionDone hb => exact Phase.noConfusion hph
    | animTick st rest hb hpend =>
        have h : s.phase = Phase.pausing := hph
        rw [hb] at h
        exact Phase.noConfusion h
    | animDone hb hpend =>
        have h : s.phase = Phase.pausing := hph
        rw [hb] at h
        exact Phase.noConfusion h
  · intro s t hstep hph
    cases hstep with
    | fadeLoaderDone hb => exact Phase.noConfusion hph
    | textFadeDone hb => exact Phase.noConfusion hph
    | rampTick q hb h0 h1 =>
        have h : s.phase = Phase.transitioning := hph
        rw [hb] at h
        exact Phase.noConfusion h
    | loadRejected hb => exact Phase.noConfusion hph
    | loadResolved hb => exact Phase.noConfusion hph
    | pauseDone hb => exact hb
    | transitionDone hb => exact Phase.noConfusion hph
    | animTick st rest hb hpend =>
        have h : s.phase = Phase.transitioning := hph
        rw [hb] at h
        exact Phase.noConfusion h
    | animDone hb hpend =>
        have h : s.phase = Phase.transitioning := hph
        rw [hb] at h
        exact Phase.noConfusion h

/-- C9: On rejection of the asset load, only the loading scene is modified:
in the resulting error state the game scene still has alpha 0 and zero
children, while the loading scene's children are exactly the one error
label. -/
theorem rejection_touches_only_loading_scene (cmds : List String)
    (s : GameState)
    (hreach : Reach cmds initialState s) (hph : s.phase = Phase.loading) :
    (showError s).gameScene.alpha = 0
    ∧ (showError s).gameScene.children = []
    ∧ (showError s).loadingScene.children = [Child.text errorText] := by
  obtain ⟨hchain, halpha, hch, _⟩ := (reach_inv cmds s hreach).1 (by rw [hph]; rfl)
  exact ⟨halpha, hch, rfl⟩

/-! ### Concrete runs used by the witnesses -/

/-- The state after the loading scene's fade-in completed. -/
def exState1 : GameState :=
  { initialState with
      phase := Phase.textFading,
      loadingScene := { initialState.loadingScene with alpha := 1 } }

/-- The state awaiting the asset load: label faded in and reset to 0%. -/
def exState2 : GameState :=
  { textFadeIn exState1 with phase := Phase.loading }

theorem exState2_reach (cmds : List String) : Reach cmds initialState exState2 :=
  Relation.ReflTransGen.tail
    (Relation.ReflTransGen.single (Step.fadeLoaderDone initialState rfl))
    (Step.textFadeDone exState1 rfl)

/-- A state in the transitioning phase. -/
def exTransState : GameState :=
  { initialState with phase := Phase.transitioning }

/-- Witness for C2: on the concrete reachable loading state, rejection shows
the error label and leaves no chain. -/
theorem load_rejection_terminal_witness :
    (showError exState2).loadingScene.children = [Child.text errorText]
    ∧ (showError exState2).chain = none :=
  ⟨(load_rejection_terminal [] exState2 (exState2_reach []) rfl).2.1,
   (load_rejection_terminal [] exState2 (exState2_reach []) rfl).2.2.1⟩

/-- Witness for C5: right after the cross-fade completes from a concrete
transitioning state, the game scene is opaque and the loading scene is
transparent. -/
theorem post_transition_opacity_witness :
    (transitionToGameComplete exTransState).gameScene.alpha ≥ 99/100
    ∧ (transitionToGameComplete exTransState).loadingScene.alpha ≤ 1/100 :=
  ⟨(post_transition_opacity [] exTransState
      (transitionToGameComplete exTransState) rfl Relation.ReflTransGen.refl).1,
   (post_transition_opacity [] exTransState
      (transitionToGameComplete exTransState) rfl Relation.ReflTransGen.refl).2.1⟩

/-- Witness for C7: the concrete loading state displays at most 90%, the
ramp value at q = 1/2 is within bounds, and the pause constant is 300 ms. -/
theorem progress_ramp_capped_then_full_witness :
    (∃ n : Int, 0 ≤ n ∧ n ≤ 90
      ∧ loadingTextContent exState2 = some (loadingMsg n))
    ∧ (0 ≤ rampPercent (1/2) ∧ rampPercent (1/2) ≤ 90)
    ∧ PAUSE_AT_FULL_MS = 300 :=
  ⟨(progress_ramp_capped_then_full []).1 exState2 (exState2_reach []) rfl,
   (progress_ramp_capped_then_full []).2.1 (1/2) (by norm_num) (by norm_num),
   (progress_ramp_capped_then_full []).2.2.2.2⟩

/-- Witness for C9: on the concrete reachable loading state, rejection
leaves the game scene untouched. -/
theorem rejection_touches_only_loading_scene_witness :
    (showError exState2).gameScene.alpha = 0
    ∧ (showError exState2).gameScene.children = [] :=
  ⟨(rejection_touches_only_loading_scene [] exState2 (exState2_reach []) rfl).1,
   (rejection_touches_only_loading_scene [] exState2 (exState2_reach []) rfl).2.1⟩

end Demo
